import Mathlib

/-!
Shallow embedding of the SkillSwap compatibility scoring and matching engine
(`src/routes/users.js`): the five sub-scorers, the score aggregator, the
skill-match explainer `findSkillMatches` and the ranking step of
`GET /api/users/matches`.

Numbers are modelled as exact rationals (`ℚ`); JavaScript strings as Lean
`String`.  The JavaScript string primitives used by the engine are modelled
structurally over the character list of a string: `toLowerCase` maps
`Char.toLower` over the characters, `split(',')` splits the character list at
commas (yielding `[""]` on the empty string, as in JavaScript), `trim` drops
whitespace from both ends, and `includes` is a contiguous-substring test.
Timestamps (`Date.now()`, `lastActive`) are rationals counting milliseconds;
the evaluation time is passed explicitly as a parameter `now`.
-/

namespace SkillSwap

/-- Model of `s.toLowerCase()`: lower-case every character. -/
def jsToLower (s : String) : String :=
  ⟨s.data.map Char.toLower⟩

/-- Split a character list at every occurrence of the separator character.
Like JavaScript `split`, the result always has one more entry than there are
separators; the empty list yields `[[]]`. -/
def splitOnChar (sep : Char) : List Char → List (List Char)
  | [] => [[]]
  | c :: t =>
    match splitOnChar sep t, decide (c = sep) with
    | r, true => [] :: r
    | [], false => [[c]]
    | h :: r, false => (c :: h) :: r

/-- Model of `s.split(sep)` for a one-character separator. -/
def jsSplit (sep : Char) (s : String) : List String :=
  (splitOnChar sep s.data).map (fun l => ⟨l⟩)

/-- Model of `s.trim()`: drop whitespace from both ends. -/
def jsTrim (s : String) : String :=
  ⟨((s.data.dropWhile Char.isWhitespace).reverse.dropWhile Char.isWhitespace).reverse⟩

/-- Tests that `sub` occurs as a contiguous sublist of the second argument. -/
def charsContain (sub : List Char) : List Char → Bool
  | [] => sub.isEmpty
  | c :: t => sub.isPrefixOf (c :: t) || charsContain sub t

/-- Model of `s.includes(sub)` of JavaScript: `sub` is a contiguous substring of `s`. -/
def strIncludes (s sub : String) : Bool :=
  charsContain sub.data s.data

/-- An entry of `skillsOffered` in the User schema: name, proficiency level,
free-text description. -/
structure OfferedSkill where
  name : String
  level : String
  description : String
deriving DecidableEq, Repr

/-- An entry of `skillsWanted` in the User schema: name, priority, free-text
description. -/
structure WantedSkill where
  name : String
  priority : String
  description : String
deriving DecidableEq, Repr

/-- The slice of a User document consumed by the matching engine:
skill lists, `averageRating`, `lastActive` (milliseconds timestamp) and the
free-text `location` (`none` models a missing/null field). -/
structure User where
  skillsOffered : List OfferedSkill
  skillsWanted : List WantedSkill
  averageRating : ℚ
  lastActive : ℚ
  location : Option String
deriving DecidableEq, Repr

/-- The `levelScores` object literal of `calculateLevelCompatibility`. -/
def levelScores : List (String × ℚ) :=
  [("beginner", 1), ("intermediate", 2), ("advanced", 3), ("expert", 4)]

/-- The `priorityMultipliers` object literal of `calculateLevelCompatibility`. -/
def priorityMultipliers : List (String × ℚ) :=
  [("low", 1/2), ("medium", 1), ("high", 3/2)]

/-- Translation of `calculateLevelCompatibility(wantedPriority, offeredLevel)`:
`levelScores[offeredLevel] || 1` times `priorityMultipliers[wantedPriority] || 1`.
Every value stored in the two object literals is truthy, so the JavaScript
`|| 1` default is exactly an association-list lookup with default `1`. -/
def calculateLevelCompatibility (wantedPriority offeredLevel : String) : ℚ :=
  let levelScore := (levelScores.lookup offeredLevel).getD 1
  let priorityMultiplier := (priorityMultipliers.lookup wantedPriority).getD 1
  levelScore * priorityMultiplier

/-- The per-match increment of `calculateSkillMatchScore`: base 5, plus the
priority bonus of the wanted skill, plus the level-compatibility bonus. -/
def skillMatchPoints (wantedSkill : WantedSkill) (offeredMatch : OfferedSkill) : ℚ :=
  5 + (if wantedSkill.priority = "high" then 3
       else if wantedSkill.priority = "medium" then 2 else 1)
    + calculateLevelCompatibility wantedSkill.priority offeredMatch.level

/-- Translation of `calculateSkillMatchScore(currentUser, otherUser)`: for each wanted skill
of the current user, `Array.prototype.find` looks for the first offered skill
of the candidate with the same lowercased name; each hit adds
`skillMatchPoints`; the accumulated score is capped at 20. -/
def calculateSkillMatchScore (currentUser otherUser : User) : ℚ :=
  let score := currentUser.skillsWanted.foldl (fun score wantedSkill =>
    match otherUser.skillsOffered.find? (fun offeredSkill =>
        jsToLower offeredSkill.name = jsToLower wantedSkill.name) with
    | some offeredMatch => score + skillMatchPoints wantedSkill offeredMatch
    | none => score) 0
  min score 20

/-- The per-match increment of `calculateMutualBenefitScore`: base 8, plus the
priority bonus of the candidate's wanted skill, plus the level-compatibility
bonus of the current user's offered level. -/
def mutualBenefitPoints (offeredSkill : OfferedSkill) (wantedMatch : WantedSkill) : ℚ :=
  8 + (if wantedMatch.priority = "high" then 4
       else if wantedMatch.priority = "medium" then 2 else 1)
    + calculateLevelCompatibility wantedMatch.priority offeredSkill.level

/-- Translation of `calculateMutualBenefitScore(currentUser, otherUser)`: accumulates, over
the current user's offered skills that the candidate wants, score and
`mutualMatches` count; adds `(mutualMatches - 1) * 5` when more than one
match was found; caps the result at 25. -/
def calculateMutualBenefitScore (currentUser otherUser : User) : ℚ :=
  let p := currentUser.skillsOffered.foldl (fun acc offeredSkill =>
    match otherUser.skillsWanted.find? (fun wantedSkill =>
        jsToLower wantedSkill.name = jsToLower offeredSkill.name) with
    | some wantedMatch => (acc.1 + mutualBenefitPoints offeredSkill wantedMatch, acc.2 + 1)
    | none => acc) ((0 : ℚ), (0 : ℕ))
  let score := if p.2 > 1 then p.1 + ((p.2 - 1 : ℕ) : ℚ) * 5 else p.1
  min score 25

/-- JavaScript falsiness of the optional location string: `null`/`undefined`
and the empty string are falsy. -/
def locMissing : Option String → Bool
  | none => true
  | some s => s = ""

/-- Model of `s.split(',')[0]`: with a non-empty separator, `split` never yields an
empty array, so index 0 always exists. -/
def firstSeg (s : String) : String :=
  (jsSplit ',' s).headD ""

/-- Translation of `calculateLocationScore(currentLocation, otherLocation)`,
clause by clause: falsy argument → 0; lowercase both; exact equality → 10;
`current.includes(other.split(',')[0]) || other.includes(current.split(',')[0])`
→ 8; both have a second comma-delimited part and the trimmed second parts are
equal → 5; otherwise 0. -/
def calculateLocationScore (currentLocation otherLocation : Option String) : ℚ :=
  if locMissing currentLocation || locMissing otherLocation then 0
  else
    let current := jsToLower (currentLocation.getD "")
    let other := jsToLower (otherLocation.getD "")
    if current = other then 10
    else if strIncludes current (firstSeg other) || strIncludes other (firstSeg current) then 8
    else
      let currentParts := jsSplit ',' current
      let otherParts := jsSplit ',' other
      if currentParts.length > 1 ∧ otherParts.length > 1 ∧
          jsTrim (currentParts.getD 1 "") = jsTrim (otherParts.getD 1 "") then 5
      else 0

/-- Model of `Math.floor((now - lastActive) / (1000*60*60*24))`: whole days elapsed. -/
def daysSinceLastActive (now lastActive : ℚ) : ℤ :=
  ⌊(now - lastActive) / (1000 * 60 * 60 * 24)⌋

/-- The `breakdown` record assembled by `calculateCompatibilityScore`. -/
structure Breakdown where
  skillMatch : ℚ
  mutualBenefit : ℚ
  ratingBonus : ℚ
  activityBonus : ℚ
  locationBonus : ℚ
deriving DecidableEq, Repr

/-- The `{totalScore, breakdown}` object returned by
`calculateCompatibilityScore`. -/
structure CompatibilityResult where
  totalScore : ℚ
  breakdown : Breakdown
deriving DecidableEq, Repr

/-- Model of `Math.round(x)`: round half toward positive infinity. -/
def jsRound (x : ℚ) : ℤ :=
  ⌊x + 1/2⌋

/-- Model of `Math.round(x * 100) / 100`: round to two decimal places. -/
def roundTo2 (x : ℚ) : ℚ :=
  (jsRound (x * 100) : ℚ) / 100

/-- Translation of `calculateCompatibilityScore(currentUser, otherUser)`, with the wall clock
`Date.now()` made explicit as `now`: the five sub-scores, their weighted sum
(weights 0.4, 0.3, 0.15, 0.1, 0.05) rounded to two decimals, and the
unweighted breakdown. -/
def calculateCompatibilityScore (currentUser otherUser : User) (now : ℚ) :
    CompatibilityResult :=
  let skillMatchScore := calculateSkillMatchScore currentUser otherUser
  let mutualBenefitScore := calculateMutualBenefitScore currentUser otherUser
  let ratingScore := min (otherUser.averageRating * 2) 10
  let activityScore :=
    max 0 (10 - (daysSinceLastActive now otherUser.lastActive : ℚ))
  let locationScore := calculateLocationScore currentUser.location otherUser.location
  let totalScore := skillMatchScore * 0.4 + mutualBenefitScore * 0.3
    + ratingScore * 0.15 + activityScore * 0.1 + locationScore * 0.05
  { totalScore := roundTo2 totalScore
    breakdown :=
      { skillMatch := skillMatchScore
        mutualBenefit := mutualBenefitScore
        ratingBonus := ratingScore
        activityBonus := activityScore
        locationBonus := locationScore } }

/-- An entry of `findSkillMatches(...).youCanTeach`. -/
structure YouCanTeachEntry where
  skill : String
  yourLevel : String
  theirPriority : String
  theirDescription : String
deriving DecidableEq, Repr

/-- An entry of `findSkillMatches(...).theyCanTeach`. -/
structure TheyCanTeachEntry where
  skill : String
  theirLevel : String
  yourPriority : String
  yourDescription : String
deriving DecidableEq, Repr

/-- An entry of `findSkillMatches(...).mutualMatches`. -/
structure MutualMatchEntry where
  skill : String
  yourLevel : String
  theirLevel : String
deriving DecidableEq, Repr

/-- The three lists built by `findSkillMatches`. -/
structure SkillMatches where
  youCanTeach : List YouCanTeachEntry
  theyCanTeach : List TheyCanTeachEntry
  mutualMatches : List MutualMatchEntry
deriving DecidableEq, Repr

/-- Translation of `findSkillMatches(currentUser, otherUser)`: three `forEach`/`find`/`push`
loops, each modelled as a `filterMap` that keeps an element exactly when
`find` hits, pushing the record the source builds.  `youCanTeach` scans the
current user's offered skills against the candidate's wanted list,
`theyCanTeach` the candidate's offered skills against the current user's
wanted list, and `mutualMatches` the current user's offered skills against
the candidate's offered list. -/
def findSkillMatches (currentUser otherUser : User) : SkillMatches :=
  { youCanTeach := currentUser.skillsOffered.filterMap (fun offeredSkill =>
      (otherUser.skillsWanted.find? (fun wantedSkill =>
          jsToLower wantedSkill.name = jsToLower offeredSkill.name)).map
        (fun wantedMatch =>
          { skill := offeredSkill.name
            yourLevel := offeredSkill.level
            theirPriority := wantedMatch.priority
            theirDescription := wantedMatch.description }))
    theyCanTeach := otherUser.skillsOffered.filterMap (fun offeredSkill =>
      (currentUser.skillsWanted.find? (fun wantedSkill =>
          jsToLower wantedSkill.name = jsToLower offeredSkill.name)).map
        (fun wantedMatch =>
          { skill := offeredSkill.name
            theirLevel := offeredSkill.level
            yourPriority := wantedMatch.priority
            yourDescription := wantedMatch.description }))
    mutualMatches := currentUser.skillsOffered.filterMap (fun offeredSkill =>
      (otherUser.skillsOffered.find? (fun otherOfferedSkill =>
          jsToLower offeredSkill.name = jsToLower otherOfferedSkill.name)).map
        (fun mutualMatch =>
          { skill := offeredSkill.name
            yourLevel := offeredSkill.level
            theirLevel := mutualMatch.level })) }

/-- A candidate user paired with the compatibility score attached by the
`GET /api/users/matches` handler. -/
structure ScoredUser where
  user : User
  compatibilityScore : ℚ
deriving DecidableEq, Repr

/-- Stable descending insertion: place `x` before the first element whose
score does not exceed `x`'s.  This realizes the ECMAScript guarantee that
`Array.prototype.sort` is stable for the comparator
`(a, b) => b.compatibilityScore - a.compatibilityScore`: any stable sort with
a consistent comparator yields this unique output. -/
def insertDescBy {α : Type} (score : α → ℚ) (x : α) : List α → List α
  | [] => [x]
  | y :: ys =>
    if score y ≤ score x then x :: y :: ys else y :: insertDescBy score x ys

/-- Stable sort, descending by score. -/
def sortDescBy {α : Type} (score : α → ℚ) : List α → List α
  | [] => []
  | x :: xs => insertDescBy score x (sortDescBy score xs)

/-- The scoring map of the `GET /api/users/matches` handler: each potential
match is paired with `calculateCompatibilityScore(...).totalScore`. -/
def scoreCandidates (currentUser : User) (now : ℚ) (potentialMatches : List User) :
    List ScoredUser :=
  potentialMatches.map (fun user =>
    { user := user
      compatibilityScore := (calculateCompatibilityScore currentUser user now).totalScore })

/-- The ranking step of the `GET /api/users/matches` handler: score every
candidate, then sort descending by `compatibilityScore` (stable). -/
def rankMatches (currentUser : User) (now : ℚ) (potentialMatches : List User) :
    List ScoredUser :=
  sortDescBy (fun u => u.compatibilityScore) (scoreCandidates currentUser now potentialMatches)

end SkillSwap

namespace SkillSwap

/-! ## Specification-side formulations

These definitions follow the wording of the specification (§4.1, §4.2, §4.4,
§4.6); the theorems below compare them with the code-derived definitions
above. -/

/-- Spec §4.4: `levelScore(level)`, with default 1 for unrecognized levels. -/
def specLevelScore (level : String) : ℚ :=
  if level = "beginner" then 1
  else if level = "intermediate" then 2
  else if level = "advanced" then 3
  else if level = "expert" then 4
  else 1

/-- Spec §4.4: `priorityMultiplier(priority)`, with default 1 for
unrecognized priorities. -/
def specPriorityMultiplier (priority : String) : ℚ :=
  if priority = "low" then 1/2
  else if priority = "medium" then 1
  else if priority = "high" then 3/2
  else 1

lemma lookup_levelScores (level : String) :
    ((levelScores.lookup level).getD 1) = specLevelScore level := by
  simp only [levelScores, List.lookup, specLevelScore]
  cases h1 : level == "beginner" <;> cases h2 : level == "intermediate" <;>
    cases h3 : level == "advanced" <;> cases h4 : level == "expert" <;>
    simp_all [beq_iff_eq]

lemma lookup_priorityMultipliers (priority : String) :
    ((priorityMultipliers.lookup priority).getD 1) = specPriorityMultiplier priority := by
  simp only [priorityMultipliers, List.lookup, specPriorityMultiplier]
  cases h1 : priority == "low" <;> cases h2 : priority == "medium" <;>
    cases h3 : priority == "high" <;> simp_all [beq_iff_eq]

lemma specLevelScore_bounds (level : String) :
    1 ≤ specLevelScore level ∧ specLevelScore level ≤ 4 := by
  unfold specLevelScore
  split_ifs <;> norm_num

lemma specPriorityMultiplier_bounds (priority : String) :
    1/2 ≤ specPriorityMultiplier priority ∧ specPriorityMultiplier priority ≤ 3/2 := by
  unfold specPriorityMultiplier
  split_ifs <;> norm_num

lemma calculateLevelCompatibility_nonneg (wantedPriority offeredLevel : String) :
    0 ≤ calculateLevelCompatibility wantedPriority offeredLevel := by
  unfold calculateLevelCompatibility
  rw [lookup_levelScores, lookup_priorityMultipliers]
  have h1 := specLevelScore_bounds offeredLevel
  have h2 := specPriorityMultiplier_bounds wantedPriority
  exact mul_nonneg (by linarith [h1.1]) (by linarith [h2.1])

end SkillSwap

namespace SkillSwap

/-- Spec §4.1: the points one wanted skill contributes, written as in the
specification — 0 without a case-insensitive match among the candidate's
offered skills, otherwise base 5 plus the priority bonus (high 3, medium 2,
low 1) plus the level-compatibility bonus of the matched offered level. -/
def specWantedSkillPoints (otherUser : User) (wantedSkill : WantedSkill) : ℚ :=
  match otherUser.skillsOffered.find? (fun offeredSkill =>
      jsToLower offeredSkill.name = jsToLower wantedSkill.name) with
  | some offeredMatch =>
      5 + (if wantedSkill.priority = "high" then 3
           else if wantedSkill.priority = "medium" then 2 else 1)
        + calculateLevelCompatibility wantedSkill.priority offeredMatch.level
  | none => 0

/-- Spec §4.1: the un-clamped skill-match sum across all wanted skills. -/
def specSkillMatchSum (currentUser otherUser : User) : ℚ :=
  (currentUser.skillsWanted.map (specWantedSkillPoints otherUser)).sum

/-- Spec §4.2: the points one offered skill contributes to mutual benefit —
0 without a case-insensitive match among the candidate's wanted skills,
otherwise base 8 plus the priority bonus (high 4, medium 2, low 1) plus the
level-compatibility bonus. -/
def specOfferedSkillPoints (otherUser : User) (offeredSkill : OfferedSkill) : ℚ :=
  match otherUser.skillsWanted.find? (fun wantedSkill =>
      jsToLower wantedSkill.name = jsToLower offeredSkill.name) with
  | some wantedMatch =>
      8 + (if wantedMatch.priority = "high" then 4
           else if wantedMatch.priority = "medium" then 2 else 1)
        + calculateLevelCompatibility wantedMatch.priority offeredSkill.level
  | none => 0

/-- Spec §4.2: the un-clamped mutual-benefit sum across all offered skills. -/
def specMutualBenefitSum (currentUser otherUser : User) : ℚ :=
  (currentUser.skillsOffered.map (specOfferedSkillPoints otherUser)).sum

/-- Spec §4.2: the number of mutual matches. -/
def specMutualMatchCount (currentUser otherUser : User) : ℕ :=
  currentUser.skillsOffered.countP (fun offeredSkill =>
    (otherUser.skillsWanted.find? (fun wantedSkill =>
      jsToLower wantedSkill.name = jsToLower offeredSkill.name)).isSome)

lemma skillMatch_foldl_eq (otherUser : User) (l : List WantedSkill) (acc : ℚ) :
    l.foldl (fun score wantedSkill =>
      match otherUser.skillsOffered.find? (fun offeredSkill =>
          jsToLower offeredSkill.name = jsToLower wantedSkill.name) with
      | some offeredMatch => score + skillMatchPoints wantedSkill offeredMatch
      | none => score) acc
    = acc + (l.map (specWantedSkillPoints otherUser)).sum := by
  induction l generalizing acc with
  | nil => simp
  | cons w t ih =>
    rw [List.foldl_cons, ih, List.map_cons, List.sum_cons]
    unfold specWantedSkillPoints skillMatchPoints
    cases hf : otherUser.skillsOffered.find? (fun offeredSkill =>
        jsToLower offeredSkill.name = jsToLower w.name) <;> simp [hf] <;> ring

lemma mutualBenefit_foldl_eq (otherUser : User) (l : List OfferedSkill) (acc : ℚ × ℕ) :
    l.foldl (fun acc offeredSkill =>
      match otherUser.skillsWanted.find? (fun wantedSkill =>
          jsToLower wantedSkill.name = jsToLower offeredSkill.name) with
      | some wantedMatch => (acc.1 + mutualBenefitPoints offeredSkill wantedMatch, acc.2 + 1)
      | none => acc) acc
    = (acc.1 + (l.map (specOfferedSkillPoints otherUser)).sum,
       acc.2 + l.countP (fun offeredSkill =>
         (otherUser.skillsWanted.find? (fun wantedSkill =>
           jsToLower wantedSkill.name = jsToLower offeredSkill.name)).isSome)) := by
  induction l generalizing acc with
  | nil => simp
  | cons o t ih =>
    rw [List.foldl_cons, ih]
    unfold specOfferedSkillPoints
    cases hf : otherUser.skillsWanted.find? (fun wantedSkill =>
        jsToLower wantedSkill.name = jsToLower o.name) with
    | none => simp [hf, List.countP_cons]
    | some w =>
      simp [hf, List.countP_cons, Prod.ext_iff, mutualBenefitPoints]
      constructor
      · ring
      · omega

end SkillSwap

namespace SkillSwap

/-- Scenario 1/2 current user of the spec: wants Python with high priority,
offers JavaScript at advanced level, located in New York. -/
def scenarioCurrentUser : User :=
  { skillsOffered := [{ name := "JavaScript", level := "advanced", description := "" }]
    skillsWanted := [{ name := "Python", priority := "high", description := "" }]
    averageRating := 0
    lastActive := 0
    location := some "New York, NY" }

/-- Scenario 1/2 candidate of the spec: offers Python at expert level, wants
JavaScript with medium priority, rated 5, last active at time 0, located in
New York. -/
def scenarioCandidate : User :=
  { skillsOffered := [{ name := "Python", level := "expert", description := "" }]
    skillsWanted := [{ name := "JavaScript", priority := "medium", description := "" }]
    averageRating := 5
    lastActive := 0
    location := some "New York, NY" }

/-- C2: the function `calculateSkillMatchScore` equals, for every pair of profiles, the
sum over each wanted skill with an exact case-insensitive name match among
the candidate's offered skills of 5 base points plus the priority bonus
(high 3, medium 2, low 1) plus the level-compatibility bonus of the matched
offered level and wanted priority, clamped to at most 20 (`specSkillMatchSum`
spells out that sum; an unmatched wanted skill contributes 0, so with no
match at all the score is `min 0 20 = 0`).  In particular, a single wanted
`{name: "Python", priority: "high"}` matching an offered
`{name: "Python", level: "expert"}` yields exactly 14. -/
theorem skillMatchScore_spec :
    (∀ currentUser otherUser : User,
      calculateSkillMatchScore currentUser otherUser
        = min (specSkillMatchSum currentUser otherUser) 20) ∧
    calculateSkillMatchScore scenarioCurrentUser scenarioCandidate = 14 := by
  constructor
  · intro currentUser otherUser
    unfold calculateSkillMatchScore
    rw [skillMatch_foldl_eq]
    simp [specSkillMatchSum]
  · simp [calculateSkillMatchScore, scenarioCurrentUser, scenarioCandidate, skillMatchPoints,
      calculateLevelCompatibility, levelScores, priorityMultipliers, List.find?,
      List.lookup] <;> norm_num [min_def]

/-- C3: the function `calculateMutualBenefitScore` equals, for every pair of profiles, the
sum over each offered skill of the current user with an exact
case-insensitive name match among the candidate's wanted skills of 8 base
points plus the priority bonus (high 4, medium 2, low 1) plus the
level-compatibility bonus, plus `(matchCount - 1) * 5` when `matchCount > 1`,
the grand total clamped to at most 25.  In particular, a single mutual match
of offered `{name: "JavaScript", level: "advanced"}` against wanted
`{name: "JavaScript", priority: "medium"}` yields exactly 13. -/
theorem mutualBenefitScore_spec :
    (∀ currentUser otherUser : User,
      calculateMutualBenefitScore currentUser otherUser
        = min (specMutualBenefitSum currentUser otherUser
            + (if 1 < specMutualMatchCount currentUser otherUser
               then ((specMutualMatchCount currentUser otherUser - 1 : ℕ) : ℚ) * 5
               else 0)) 25) ∧
    calculateMutualBenefitScore scenarioCurrentUser scenarioCandidate = 13 := by
  constructor
  · intro currentUser otherUser
    unfold calculateMutualBenefitScore
    rw [mutualBenefit_foldl_eq]
    simp only [specMutualBenefitSum, specMutualMatchCount, zero_add]
    split_ifs with h
    · rfl
    · simp
  · simp [calculateMutualBenefitScore, scenarioCurrentUser, scenarioCandidate,
      mutualBenefitPoints, calculateLevelCompatibility, levelScores, priorityMultipliers,
      List.find?, List.lookup] <;> norm_num [min_def]

end SkillSwap

namespace SkillSwap

lemma specWantedSkillPoints_nonneg (otherUser : User) (w : WantedSkill) :
    0 ≤ specWantedSkillPoints otherUser w := by
  unfold specWantedSkillPoints
  cases hf : otherUser.skillsOffered.find? (fun offeredSkill =>
      jsToLower offeredSkill.name = jsToLower w.name) with
  | none => simp
  | some o =>
    simp only []
    have h := calculateLevelCompatibility_nonneg w.priority o.level
    split_ifs <;> linarith

lemma specOfferedSkillPoints_nonneg (otherUser : User) (o : OfferedSkill) :
    0 ≤ specOfferedSkillPoints otherUser o := by
  unfold specOfferedSkillPoints
  cases hf : otherUser.skillsWanted.find? (fun wantedSkill =>
      jsToLower wantedSkill.name = jsToLower o.name) with
  | none => simp
  | some w =>
    simp only []
    have h := calculateLevelCompatibility_nonneg w.priority o.level
    split_ifs <;> linarith

lemma calculateSkillMatchScore_bounds (currentUser otherUser : User) :
    0 ≤ calculateSkillMatchScore currentUser otherUser ∧
    calculateSkillMatchScore currentUser otherUser ≤ 20 := by
  unfold calculateSkillMatchScore
  rw [skillMatch_foldl_eq, zero_add]
  refine ⟨le_min ?_ (by norm_num), min_le_right _ _⟩
  refine List.sum_nonneg ?_
  intro x hx
  rcases List.mem_map.mp hx with ⟨w, _, rfl⟩
  exact specWantedSkillPoints_nonneg otherUser w

lemma calculateMutualBenefitScore_bounds (currentUser otherUser : User) :
    0 ≤ calculateMutualBenefitScore currentUser otherUser ∧
    calculateMutualBenefitScore currentUser otherUser ≤ 25 := by
  unfold calculateMutualBenefitScore
  rw [mutualBenefit_foldl_eq]
  simp only [zero_add]
  have hsum : 0 ≤ (currentUser.skillsOffered.map (specOfferedSkillPoints otherUser)).sum := by
    refine List.sum_nonneg ?_
    intro x hx
    rcases List.mem_map.mp hx with ⟨o, _, rfl⟩
    exact specOfferedSkillPoints_nonneg otherUser o
  refine ⟨le_min ?_ (by norm_num), min_le_right _ _⟩
  split_ifs
  · have hcast : (0:ℚ) ≤ ((currentUser.skillsOffered.countP (fun offeredSkill =>
        (otherUser.skillsWanted.find? (fun wantedSkill =>
          jsToLower wantedSkill.name = jsToLower offeredSkill.name)).isSome) - 1 : ℕ) : ℚ) * 5 := by
      positivity
    linarith
  · exact hsum

lemma calculateLocationScore_bounds (a b : Option String) :
    0 ≤ calculateLocationScore a b ∧ calculateLocationScore a b ≤ 10 := by
  simp only [calculateLocationScore]
  split_ifs <;> norm_num

lemma roundTo2_bounds {x : ℚ} (h0 : 0 ≤ x) (h1 : x ≤ 37/2) :
    0 ≤ roundTo2 x ∧ roundTo2 x ≤ 37/2 := by
  unfold roundTo2 jsRound
  constructor
  · apply div_nonneg _ (by norm_num)
    have h : (0:ℤ) ≤ ⌊x * 100 + 1/2⌋ := by
      apply Int.floor_nonneg.mpr
      nlinarith
    exact_mod_cast h
  · have hmono : ⌊x * 100 + 1/2⌋ ≤ ⌊(3701 : ℚ)/2⌋ := Int.floor_mono (by nlinarith)
    have hval : ⌊(3701 : ℚ)/2⌋ = 1850 := by norm_num
    rw [div_le_iff (by norm_num : (0:ℚ) < 100)]
    have hc : (⌊x * 100 + 1/2⌋ : ℚ) ≤ 1850 := by
      rw [hval] at hmono
      exact_mod_cast hmono
    linarith

/-- C1: whenever the evaluation time is not earlier than the candidate's
`lastActive` and the candidate's `averageRating` lies in [0, 5], the
`totalScore` returned by `calculateCompatibilityScore` lies in [0, 18.5] and
every breakdown field respects its cap before weighting: `skillMatch ≤ 20`,
`mutualBenefit ≤ 25`, `ratingBonus ≤ 10`, `activityBonus ≤ 10`,
`locationBonus ≤ 10`, all fields nonnegative. -/
theorem compatibilityScore_bounds (currentUser otherUser : User) (now : ℚ)
    (hlast : otherUser.lastActive ≤ now)
    (hr0 : 0 ≤ otherUser.averageRating) (hr5 : otherUser.averageRating ≤ 5) :
    (0 ≤ (calculateCompatibilityScore currentUser otherUser now).totalScore ∧
      (calculateCompatibilityScore currentUser otherUser now).totalScore ≤ 18.5) ∧
    (0 ≤ (calculateCompatibilityScore currentUser otherUser now).breakdown.skillMatch ∧
      (calculateCompatibilityScore currentUser otherUser now).breakdown.skillMatch ≤ 20) ∧
    (0 ≤ (calculateCompatibilityScore currentUser otherUser now).breakdown.mutualBenefit ∧
      (calculateCompatibilityScore currentUser otherUser now).breakdown.mutualBenefit ≤ 25) ∧
    (0 ≤ (calculateCompatibilityScore currentUser otherUser now).breakdown.ratingBonus ∧
      (calculateCompatibilityScore currentUser otherUser now).breakdown.ratingBonus ≤ 10) ∧
    (0 ≤ (calculateCompatibilityScore currentUser otherUser now).breakdown.activityBonus ∧
      (calculateCompatibilityScore currentUser otherUser now).breakdown.activityBonus ≤ 10) ∧
    (0 ≤ (calculateCompatibilityScore currentUser otherUser now).breakdown.locationBonus ∧
      (calculateCompatibilityScore currentUser otherUser now).breakdown.locationBonus ≤ 10) := by
  have hs := calculateSkillMatchScore_bounds currentUser otherUser
  have hm := calculateMutualBenefitScore_bounds currentUser otherUser
  have hl := calculateLocationScore_bounds currentUser.location otherUser.location
  have hrat0 : 0 ≤ min (otherUser.averageRating * 2) 10 :=
    le_min (by linarith) (by norm_num)
  have hrat10 : min (otherUser.averageRating * 2) 10 ≤ 10 := min_le_right _ _
  have hdays : (0:ℤ) ≤ daysSinceLastActive now otherUser.lastActive := by
    unfold daysSinceLastActive
    apply Int.floor_nonneg.mpr
    apply div_nonneg (by linarith) (by norm_num)
  have hdaysq : (0:ℚ) ≤ (daysSinceLastActive now otherUser.lastActive : ℚ) := by
    exact_mod_cast hdays
  have hact0 : 0 ≤ max 0 (10 - (daysSinceLastActive now otherUser.lastActive : ℚ)) :=
    le_max_left _ _
  have hact10 : max 0 (10 - (daysSinceLastActive now otherUser.lastActive : ℚ)) ≤ 10 :=
    max_le (by norm_num) (by linarith)
  simp only [calculateCompatibilityScore]
  have htot : 0 ≤ calculateSkillMatchScore currentUser otherUser * 0.4
        + calculateMutualBenefitScore currentUser otherUser * 0.3
        + min (otherUser.averageRating * 2) 10 * 0.15
        + max 0 (10 - (daysSinceLastActive now otherUser.lastActive : ℚ)) * 0.1
        + calculateLocationScore currentUser.location otherUser.location * 0.05 ∧
      calculateSkillMatchScore currentUser otherUser * 0.4
        + calculateMutualBenefitScore currentUser otherUser * 0.3
        + min (otherUser.averageRating * 2) 10 * 0.15
        + max 0 (10 - (daysSinceLastActive now otherUser.lastActive : ℚ)) * 0.1
        + calculateLocationScore currentUser.location otherUser.location * 0.05 ≤ 37/2 := by
    constructor
    · have h4 : (0.4 : ℚ) = 2/5 := by norm_num
      nlinarith [hs.1, hm.1, hrat0, hact0, hl.1]
    · nlinarith [hs.2, hm.2, hrat10, hact10, hl.2]
  have hr := roundTo2_bounds htot.1 htot.2
  refine ⟨⟨hr.1, by norm_num; linarith [hr.2]⟩, ⟨hs.1, hs.2⟩, ⟨hm.1, hm.2⟩,
    ⟨hrat0, hrat10⟩, ⟨hact0, hact10⟩, ⟨hl.1, hl.2⟩⟩

/-- Witness for C1 at a concrete instance: the scenario profiles evaluated
15 days after the candidate was last active. -/
theorem compatibilityScore_bounds_witness :
    (scenarioCandidate.lastActive ≤ (1296000000 : ℚ) ∧
      0 ≤ scenarioCandidate.averageRating ∧ scenarioCandidate.averageRating ≤ 5) ∧
    (0 ≤ (calculateCompatibilityScore scenarioCurrentUser scenarioCandidate
          1296000000).totalScore ∧
      (calculateCompatibilityScore scenarioCurrentUser scenarioCandidate
          1296000000).totalScore ≤ 18.5) := by
  refine ⟨⟨by norm_num [scenarioCandidate], by norm_num [scenarioCandidate],
    by norm_num [scenarioCandidate]⟩, ?_⟩
  exact (compatibilityScore_bounds scenarioCurrentUser scenarioCandidate 1296000000
    (by norm_num [scenarioCandidate]) (by norm_num [scenarioCandidate])
    (by norm_num [scenarioCandidate])).1

end SkillSwap

namespace SkillSwap

/-- C4: the `totalScore` is exactly the weighted sum of the five sub-scores the
function itself computed — weights 0.40, 0.30, 0.15, 0.10, 0.05 — rounded to
two decimal places with round-half-up on the third decimal
(`roundTo2 x = ⌊x·100 + 1/2⌋ / 100`).  In particular the scenario profiles,
which produce the sub-scores (14, 13, 10, 0, 10), yield a `totalScore` of
exactly 11.5. -/
theorem totalScore_weighted_sum :
    (∀ (currentUser otherUser : User) (now : ℚ),
      (calculateCompatibilityScore currentUser otherUser now).totalScore
        = roundTo2
            ((calculateCompatibilityScore currentUser otherUser now).breakdown.skillMatch * 0.4
            + (calculateCompatibilityScore currentUser otherUser now).breakdown.mutualBenefit * 0.3
            + (calculateCompatibilityScore currentUser otherUser now).breakdown.ratingBonus * 0.15
            + (calculateCompatibilityScore currentUser otherUser now).breakdown.activityBonus * 0.1
            + (calculateCompatibilityScore currentUser otherUser now).breakdown.locationBonus * 0.05)) ∧
    (∀ x : ℚ, roundTo2 x = (⌊x * 100 + 1/2⌋ : ℚ) / 100) ∧
    (calculateCompatibilityScore scenarioCurrentUser scenarioCandidate 1296000000).breakdown
      = { skillMatch := 14, mutualBenefit := 13, ratingBonus := 10,
          activityBonus := 0, locationBonus := 10 } ∧
    (calculateCompatibilityScore scenarioCurrentUser scenarioCandidate 1296000000).totalScore
      = 11.5 := by
  have h1 : calculateSkillMatchScore scenarioCurrentUser scenarioCandidate = 14 := by
    simp [calculateSkillMatchScore, scenarioCurrentUser, scenarioCandidate, skillMatchPoints,
      calculateLevelCompatibility, levelScores, priorityMultipliers, List.find?,
      List.lookup] <;> norm_num [min_def]
  have h2 : calculateMutualBenefitScore scenarioCurrentUser scenarioCandidate = 13 := by
    simp [calculateMutualBenefitScore, scenarioCurrentUser, scenarioCandidate,
      mutualBenefitPoints, calculateLevelCompatibility, levelScores, priorityMultipliers,
      List.find?, List.lookup] <;> norm_num [min_def]
  have h3 : calculateLocationScore scenarioCurrentUser.location scenarioCandidate.location
      = 10 := by decide
  refine ⟨fun currentUser otherUser now => rfl, fun x => rfl, ?_, ?_⟩
  · simp only [calculateCompatibilityScore, daysSinceLastActive, h1, h2, h3]
    simp only [scenarioCurrentUser, scenarioCandidate]
    norm_num [min_def, max_def]
  · simp only [calculateCompatibilityScore, daysSinceLastActive, h1, h2, h3]
    simp only [scenarioCurrentUser, scenarioCandidate]
    norm_num [roundTo2, jsRound, min_def, max_def]

end SkillSwap

namespace SkillSwap

/-- A profile that only wants Python (high priority). -/
def asymLearner : User :=
  { skillsOffered := []
    skillsWanted := [{ name := "Python", priority := "high", description := "" }]
    averageRating := 0
    lastActive := 0
    location := none }

/-- A profile that only offers Python (expert level). -/
def asymTeacher : User :=
  { skillsOffered := [{ name := "Python", level := "expert", description := "" }]
    skillsWanted := []
    averageRating := 0
    lastActive := 0
    location := none }

/-- C9: the compatibility score is not symmetric — there are profiles A, B
and an evaluation time with `score(A,B).totalScore ≠ score(B,A).totalScore`.
With `asymLearner` and `asymTeacher` at time 0 the two directions give
6.6 and 6.4. -/
theorem compatibilityScore_asymmetric :
    ∃ (a b : User) (now : ℚ),
      (calculateCompatibilityScore a b now).totalScore ≠
        (calculateCompatibilityScore b a now).totalScore := by
  refine ⟨asymLearner, asymTeacher, 0, ?_⟩
  have h1 : calculateSkillMatchScore asymLearner asymTeacher = 14 := by
    simp [calculateSkillMatchScore, asymLearner, asymTeacher, skillMatchPoints,
      calculateLevelCompatibility, levelScores, priorityMultipliers, List.find?,
      List.lookup] <;> norm_num [min_def]
  have h2 : calculateMutualBenefitScore asymLearner asymTeacher = 0 := by
    simp [calculateMutualBenefitScore, asymLearner, asymTeacher] <;> norm_num [min_def]
  have h3 : calculateSkillMatchScore asymTeacher asymLearner = 0 := by
    simp [calculateSkillMatchScore, asymTeacher, asymLearner] <;> norm_num [min_def]
  have h4 : calculateMutualBenefitScore asymTeacher asymLearner = 18 := by
    simp [calculateMutualBenefitScore, asymTeacher, asymLearner, mutualBenefitPoints,
      calculateLevelCompatibility, levelScores, priorityMultipliers, List.find?,
      List.lookup] <;> norm_num [min_def]
  have h5 : calculateLocationScore asymLearner.location asymTeacher.location = 0 := by decide
  have h6 : calculateLocationScore asymTeacher.location asymLearner.location = 0 := by decide
  simp only [calculateCompatibilityScore, daysSinceLastActive, h1, h2, h3, h4, h5, h6]
  simp only [asymLearner, asymTeacher]
  norm_num [roundTo2, jsRound, min_def, max_def]

end SkillSwap

namespace SkillSwap

/-- C8: for every skill-level string and priority string,
`calculateLevelCompatibility` returns `levelScore * priorityMultiplier`,
where `levelScore` maps beginner/intermediate/advanced/expert to 1/2/3/4 and
any unrecognized level to 1, and `priorityMultiplier` maps low/medium/high to
0.5/1/1.5 and any unrecognized priority to 1.  The function is total over all
string inputs — the unrecognized cases fall back to the defaults instead of
failing. -/
theorem levelCompatibility_total_spec :
    ∀ wantedPriority offeredLevel : String,
      calculateLevelCompatibility wantedPriority offeredLevel
        = specLevelScore offeredLevel * specPriorityMultiplier wantedPriority := by
  intro wantedPriority offeredLevel
  unfold calculateLevelCompatibility
  rw [lookup_levelScores, lookup_priorityMultipliers]

end SkillSwap

namespace SkillSwap

/-- C10: `calculateLocationScore` is symmetric in its two arguments, for all
location values (missing or present) — every clause of the scorer (falsiness
check, exact equality, the two-sided `includes` check, and the trimmed
second-segment comparison) is invariant under swapping the arguments. -/
theorem locationScore_symmetric :
    ∀ a b : Option String, calculateLocationScore a b = calculateLocationScore b a := by
  intro a b
  unfold calculateLocationScore
  by_cases h1 : locMissing a <;> by_cases h2 : locMissing b <;> simp [h1, h2]
  refine if_congr eq_comm rfl (if_congr ?_ rfl (if_congr ?_ rfl rfl))
  · constructor
    · rintro (h | h) <;> [right; left] <;> exact h
    · rintro (h | h) <;> [right; left] <;> exact h
  · constructor
    · rintro ⟨u, v, w⟩; exact ⟨v, u, w.symm⟩
    · rintro ⟨u, v, w⟩; exact ⟨v, u, w.symm⟩

end SkillSwap

namespace SkillSwap

/-- The location scorer as the specification §4.6 words it: missing side → 0;
exact (case-insensitive) full-string equality → 10; 8 exactly when one
string's first comma-delimited segment appears as a substring of the *other
string's corresponding first segment*; else 5 when both strings have at
least two comma-delimited segments and their trimmed second segments match;
else 0. -/
def specLocationScoreClaim (a b : Option String) : ℚ :=
  match a, b with
  | none, _ => 0
  | _, none => 0
  | some sa, some sb =>
    let x := jsToLower sa
    let y := jsToLower sb
    if x = y then 10
    else if strIncludes (firstSeg x) (firstSeg y) || strIncludes (firstSeg y) (firstSeg x) then 8
    else if (jsSplit ',' x).length > 1 ∧ (jsSplit ',' y).length > 1 ∧
        jsTrim ((jsSplit ',' x).getD 1 "") = jsTrim ((jsSplit ',' y).getD 1 "") then 5
    else 0

/-- The location scorer as the code actually behaves, stated in the
specification's style.  Two clauses differ from `specLocationScoreClaim`:
an empty string is treated like a missing location (JavaScript falsiness),
and the 8-point city rule tests whether one *whole* lowercased string
contains the other string's first comma-delimited segment as a substring —
not first segment against first segment. -/
def specLocationScoreAmended (a b : Option String) : ℚ :=
  match a, b with
  | none, _ => 0
  | _, none => 0
  | some sa, some sb =>
    if sa = "" ∨ sb = "" then 0
    else
      let x := jsToLower sa
      let y := jsToLower sb
      if x = y then 10
      else if strIncludes x (firstSeg y) || strIncludes y (firstSeg x) then 8
      else if (jsSplit ',' x).length > 1 ∧ (jsSplit ',' y).length > 1 ∧
          jsTrim ((jsSplit ',' x).getD 1 "") = jsTrim ((jsSplit ',' y).getD 1 "") then 5
      else 0

/-- C5 counterexample: the code gives 8 to `"x, boston"` vs `"boston, ma"`
because the whole first string contains the second's city segment, while the
claim's segment-against-segment reading gives 0; and the code gives 0 to two
empty strings (falsy), while the claim's reading gives 10 (exact equality). -/
theorem locationScore_claim_counterexample :
    calculateLocationScore (some "x, boston") (some "boston, ma") = 8 ∧
    specLocationScoreClaim (some "x, boston") (some "boston, ma") = 0 ∧
    calculateLocationScore (some "") (some "") = 0 ∧
    specLocationScoreClaim (some "") (some "") = 10 := by
  refine ⟨by decide, by decide, by decide, by decide⟩

/-- C5 amended: for all location values, `calculateLocationScore` returns
0 when either side is missing, null or empty; else 10 on exact
case-insensitive full-string equality; else 8 exactly when one whole
lowercased string contains the other's first comma-delimited segment as a
substring; else 5 when both strings have at least two comma-delimited
segments and their trimmed second segments match exactly; else 0. -/
theorem locationScore_amended :
    ∀ a b : Option String, calculateLocationScore a b = specLocationScoreAmended a b := by
  intro a b
  unfold calculateLocationScore specLocationScoreAmended
  rcases a with _ | sa <;> rcases b with _ | sb <;> simp [locMissing]

end SkillSwap

namespace SkillSwap

lemma find?_isSome_eq_any {α : Type} (p : α → Bool) (l : List α) :
    (l.find? p).isSome = l.any p := by
  induction l with
  | nil => rfl
  | cons a t ih => cases hp : p a <;> simp [List.find?_cons, hp, ih]

lemma youCanTeach_names (offered : List OfferedSkill) (wanted : List WantedSkill) :
    (offered.filterMap (fun offeredSkill =>
      (wanted.find? (fun wantedSkill =>
          jsToLower wantedSkill.name = jsToLower offeredSkill.name)).map
        (fun wantedMatch =>
          ({ skill := offeredSkill.name
             yourLevel := offeredSkill.level
             theirPriority := wantedMatch.priority
             theirDescription := wantedMatch.description } : YouCanTeachEntry)))).map
      (fun e => e.skill)
    = (offered.filter (fun offeredSkill =>
        wanted.any (fun wantedSkill =>
          jsToLower wantedSkill.name = jsToLower offeredSkill.name))).map
      (fun o => o.name) := by
  induction offered with
  | nil => rfl
  | cons o t ih =>
    cases hf : wanted.find? (fun wantedSkill =>
        jsToLower wantedSkill.name = jsToLower o.name) with
    | none =>
      have hany : wanted.any (fun wantedSkill =>
          jsToLower wantedSkill.name = jsToLower o.name) = false := by
        rw [← find?_isSome_eq_any, hf]
        rfl
      simp [List.filterMap_cons, hf, List.filter_cons, hany, ih]
    | some w =>
      have hany : wanted.any (fun wantedSkill =>
          jsToLower wantedSkill.name = jsToLower o.name) = true := by
        rw [← find?_isSome_eq_any, hf]
        rfl
      simp [List.filterMap_cons, hf, List.filter_cons, hany, ih]

lemma theyCanTeach_names (offered : List OfferedSkill) (wanted : List WantedSkill) :
    (offered.filterMap (fun offeredSkill =>
      (wanted.find? (fun wantedSkill =>
          jsToLower wantedSkill.name = jsToLower offeredSkill.name)).map
        (fun wantedMatch =>
          ({ skill := offeredSkill.name
             theirLevel := offeredSkill.level
             yourPriority := wantedMatch.priority
             yourDescription := wantedMatch.description } : TheyCanTeachEntry)))).map
      (fun e => e.skill)
    = (offered.filter (fun offeredSkill =>
        wanted.any (fun wantedSkill =>
          jsToLower wantedSkill.name = jsToLower offeredSkill.name))).map
      (fun o => o.name) := by
  induction offered with
  | nil => rfl
  | cons o t ih =>
    cases hf : wanted.find? (fun wantedSkill =>
        jsToLower wantedSkill.name = jsToLower o.name) with
    | none =>
      have hany : wanted.any (fun wantedSkill =>
          jsToLower wantedSkill.name = jsToLower o.name) = false := by
        rw [← find?_isSome_eq_any, hf]
        rfl
      simp [List.filterMap_cons, hf, List.filter_cons, hany, ih]
    | some w =>
      have hany : wanted.any (fun wantedSkill =>
          jsToLower wantedSkill.name = jsToLower o.name) = true := by
        rw [← find?_isSome_eq_any, hf]
        rfl
      simp [List.filterMap_cons, hf, List.filter_cons, hany, ih]

lemma mutualMatches_names (offered otherOffered : List OfferedSkill) :
    (offered.filterMap (fun offeredSkill =>
      (otherOffered.find? (fun otherOfferedSkill =>
          jsToLower offeredSkill.name = jsToLower otherOfferedSkill.name)).map
        (fun mutualMatch =>
          ({ skill := offeredSkill.name
             yourLevel := offeredSkill.level
             theirLevel := mutualMatch.level } : MutualMatchEntry)))).map
      (fun e => e.skill)
    = (offered.filter (fun offeredSkill =>
        otherOffered.any (fun otherOfferedSkill =>
          jsToLower offeredSkill.name = jsToLower otherOfferedSkill.name))).map
      (fun o => o.name) := by
  induction offered with
  | nil => rfl
  | cons o t ih =>
    cases hf : otherOffered.find? (fun otherOfferedSkill =>
        jsToLower o.name = jsToLower otherOfferedSkill.name) with
    | none =>
      have hany : otherOffered.any (fun otherOfferedSkill =>
          jsToLower o.name = jsToLower otherOfferedSkill.name) = false := by
        rw [← find?_isSome_eq_any, hf]
        rfl
      simp [List.filterMap_cons, hf, List.filter_cons, hany, ih]
    | some w =>
      have hany : otherOffered.any (fun otherOfferedSkill =>
          jsToLower o.name = jsToLower otherOfferedSkill.name) = true := by
        rw [← find?_isSome_eq_any, hf]
        rfl
      simp [List.filterMap_cons, hf, List.filter_cons, hany, ih]

/-- A current user who both offers and wants skill `x`. -/
def overlapCurrentUser : User :=
  { skillsOffered := [{ name := "x", level := "advanced", description := "" }]
    skillsWanted := [{ name := "x", priority := "high", description := "" }]
    averageRating := 0
    lastActive := 0
    location := none }

/-- A candidate who also both offers and wants skill `x`. -/
def overlapCandidate : User :=
  { skillsOffered := [{ name := "x", level := "expert", description := "" }]
    skillsWanted := [{ name := "x", priority := "medium", description := "" }]
    averageRating := 0
    lastActive := 0
    location := none }

/-- C6 counterexample: when both parties offer *and* want the same skill,
its name appears in all three lists returned by `findSkillMatches` — the
lists are not pairwise disjoint. -/
theorem findSkillMatches_not_disjoint :
    "x" ∈ ((findSkillMatches overlapCurrentUser overlapCandidate).youCanTeach.map
        (fun e => e.skill)) ∧
    "x" ∈ ((findSkillMatches overlapCurrentUser overlapCandidate).theyCanTeach.map
        (fun e => e.skill)) ∧
    "x" ∈ ((findSkillMatches overlapCurrentUser overlapCandidate).mutualMatches.map
        (fun e => e.skill)) := by
  refine ⟨by decide, by decide, by decide⟩

/-- C6 amended: the three lists of `findSkillMatches` are characterized by
their membership rules — `youCanTeach` lists exactly the current user's
offered skills whose name the candidate wants (case-insensitively),
`theyCanTeach` exactly the candidate's offered skills the current user
wants, and `mutualMatches` exactly the current user's offered skills the
candidate also offers — but the three lists need not be pairwise disjoint. -/
theorem findSkillMatches_characterization :
    ∀ currentUser otherUser : User,
      ((findSkillMatches currentUser otherUser).youCanTeach.map (fun e => e.skill)
        = (currentUser.skillsOffered.filter (fun offeredSkill =>
            otherUser.skillsWanted.any (fun wantedSkill =>
              jsToLower wantedSkill.name = jsToLower offeredSkill.name))).map
            (fun o => o.name)) ∧
      ((findSkillMatches currentUser otherUser).theyCanTeach.map (fun e => e.skill)
        = (otherUser.skillsOffered.filter (fun offeredSkill =>
            currentUser.skillsWanted.any (fun wantedSkill =>
              jsToLower wantedSkill.name = jsToLower offeredSkill.name))).map
            (fun o => o.name)) ∧
      ((findSkillMatches currentUser otherUser).mutualMatches.map (fun e => e.skill)
        = (currentUser.skillsOffered.filter (fun offeredSkill =>
            otherUser.skillsOffered.any (fun otherOfferedSkill =>
              jsToLower offeredSkill.name = jsToLower otherOfferedSkill.name))).map
            (fun o => o.name)) := by
  intro currentUser otherUser
  unfold findSkillMatches
  exact ⟨youCanTeach_names currentUser.skillsOffered otherUser.skillsWanted,
    theyCanTeach_names otherUser.skillsOffered currentUser.skillsWanted,
    mutualMatches_names currentUser.skillsOffered otherUser.skillsOffered⟩

end SkillSwap

namespace SkillSwap

lemma mem_insertDescBy {α : Type} (score : α → ℚ) (x a : α) (l : List α) :
    a ∈ insertDescBy score x l ↔ a = x ∨ a ∈ l := by
  induction l with
  | nil => simp [insertDescBy]
  | cons y ys ih =>
    simp only [insertDescBy]
    split_ifs with h
    · simp [List.mem_cons]
    · simp only [List.mem_cons, ih]
      tauto

lemma pairwise_insertDescBy {α : Type} (score : α → ℚ) (x : α) (l : List α)
    (hl : l.Pairwise (fun a b => score b ≤ score a)) :
    (insertDescBy score x l).Pairwise (fun a b => score b ≤ score a) := by
  induction l with
  | nil => simp [insertDescBy]
  | cons y ys ih =>
    rcases List.pairwise_cons.mp hl with ⟨hy, hys⟩
    simp only [insertDescBy]
    split_ifs with h
    · refine List.pairwise_cons.mpr ⟨?_, hl⟩
      intro b hb
      rcases List.mem_cons.mp hb with rfl | hb
      · exact h
      · exact le_trans (hy b hb) h
    · refine List.pairwise_cons.mpr ⟨?_, ih hys⟩
      intro b hb
      rcases (mem_insertDescBy score x b ys).mp hb with rfl | hb
      · exact le_of_lt (not_le.mp h)
      · exact hy b hb

lemma sortDescBy_pairwise {α : Type} (score : α → ℚ) (l : List α) :
    (sortDescBy score l).Pairwise (fun a b => score b ≤ score a) := by
  induction l with
  | nil => simp [sortDescBy]
  | cons x xs ih => exact pairwise_insertDescBy score x _ ih

lemma insertDescBy_perm {α : Type} (score : α → ℚ) (x : α) (l : List α) :
    (insertDescBy score x l).Perm (x :: l) := by
  induction l with
  | nil => simp [insertDescBy]
  | cons y ys ih =>
    simp only [insertDescBy]
    split_ifs with h
    · exact List.Perm.refl _
    · exact (List.Perm.cons y ih).trans (List.Perm.swap x y ys)

lemma sortDescBy_perm {α : Type} (score : α → ℚ) (l : List α) :
    (sortDescBy score l).Perm l := by
  induction l with
  | nil => simp [sortDescBy]
  | cons x xs ih =>
    exact (insertDescBy_perm score x _).trans (List.Perm.cons x ih)

lemma filter_insertDescBy {α : Type} (score : α → ℚ) (x : α) (l : List α) (q : ℚ) :
    (insertDescBy score x l).filter (fun a => score a = q)
      = if score x = q then x :: l.filter (fun a => score a = q)
        else l.filter (fun a => score a = q) := by
  induction l with
  | nil =>
    simp only [insertDescBy]
    by_cases hx : score x = q <;> simp [List.filter, hx]
  | cons y ys ih =>
    by_cases h : score y ≤ score x
    · simp only [insertDescBy, if_pos h]
      by_cases hx : score x = q <;> simp [List.filter_cons, hx]
    · simp only [insertDescBy, if_neg h]
      by_cases hx : score x = q <;> by_cases hy : score y = q
      · exact absurd (le_of_eq (hy.trans hx.symm)) h
      · simp [List.filter_cons, hx, hy, ih]
      · simp [List.filter_cons, hx, hy, ih]
      · simp [List.filter_cons, hx, hy, ih]

lemma filter_sortDescBy {α : Type} (score : α → ℚ) (l : List α) (q : ℚ) :
    (sortDescBy score l).filter (fun a => score a = q)
      = l.filter (fun a => score a = q) := by
  induction l with
  | nil => rfl
  | cons x xs ih =>
    simp only [sortDescBy]
    rw [filter_insertDescBy]
    by_cases hx : score x = q <;> simp [List.filter_cons, hx, ih]

/-- C7: the ranking step of `GET /api/users/matches` produces the scored
candidates sorted in non-increasing order of `compatibilityScore`, it is a
permutation of the scored input, and candidates with equal scores retain
their original input order: for every score value `q`, the sub-list of
results carrying score `q` is exactly the sub-list of the scored input
carrying score `q`, in input order.  Determinism of re-runs is definitional:
`rankMatches` is a pure function of its arguments. -/
theorem rankMatches_sorted_stable :
    ∀ (currentUser : User) (now : ℚ) (potentialMatches : List User),
      (rankMatches currentUser now potentialMatches).Pairwise
        (fun a b => b.compatibilityScore ≤ a.compatibilityScore) ∧
      (rankMatches currentUser now potentialMatches).Perm
        (scoreCandidates currentUser now potentialMatches) ∧
      (∀ q : ℚ,
        (rankMatches currentUser now potentialMatches).filter
            (fun u => u.compatibilityScore = q)
          = (scoreCandidates currentUser now potentialMatches).filter
            (fun u => u.compatibilityScore = q)) := by
  intro currentUser now potentialMatches
  exact ⟨sortDescBy_pairwise _ _, sortDescBy_perm _ _,
    fun q => filter_sortDescBy _ _ q⟩

end SkillSwap
